import Mathlib

/-!
Verification development for the pandoraindexer repository: a shallow
embedding, in Lean 4, of the id construction, timestamp bucketing,
numerical helpers, row-update logic, data-store interactions and
factory-discovery configuration of the indexer, together with theorems
settling the specification claims about them.

Conventions used throughout:
* JavaScript/TypeScript `bigint` values are modelled as `Int` (or `Nat`
  where the surrounding code guarantees non-negativity, e.g. event
  arguments decoded from `uint256`).
* JavaScript strings are modelled as Lean `String`; string interpolation
  of a number uses its decimal representation, modelled by `decStr`.
* Fallible data-store operations return `Except DbError`; stateful handler
  code is modelled by the state-threading monad `DbM` in which writes
  performed before a thrown error persist (as they do inside a database
  transaction before rollback is decided by the caller).
-/

/- ============================================================ -/
/- Section 1: decimal strings (JS number/bigint to string)      -/
/- ============================================================ -/

/-- Digit-extraction loop for `decChars`, recursing on a fuel bound so
that the definition is structurally recursive: emits the decimal digits of
`n`, most significant first. -/
def decCharsAux : Nat → Nat → List Char
  | 0, _ => []
  | fuel + 1, n =>
    if n < 10 then [Nat.digitChar n]
    else decCharsAux fuel (n / 10) ++ [Nat.digitChar (n % 10)]

/-- Decimal digit characters of a natural number, most significant first.
Models the decimal string produced by JavaScript template interpolation of
a number or bigint (`` `${n}` ``, `n.toString()`). -/
def decChars (n : Nat) : List Char :=
  decCharsAux (n + 1) n

/-- Decimal string of a natural number. -/
def decStr (n : Nat) : String :=
  ⟨decChars n⟩

/- ============================================================ -/
/- Section 2: utils/helpers.ts                                  -/
/- ============================================================ -/

/-- Embeds `makeId` from src/src/utils/helpers.ts:
`[chainId, ...parts].join("-")`. The numeric chain id is interpolated in
decimal; the caller supplies the remaining parts as strings. -/
def joinDash : List String → String
  | [] => ""
  | [s] => s
  | s :: rest => s ++ "-" ++ joinDash rest

/-- Embeds `makeId(chainId, ...parts)` from src/src/utils/helpers.ts. -/
def makeId (chainId : Nat) (parts : List String) : String :=
  joinDash (decStr chainId :: parts)

/-- Embeds the BigInt-based `getDayTimestamp` from src/src/utils/helpers.ts:
`timestamp - (timestamp % 86400n)`. Timestamps are block timestamps and
hence non-negative, so the bigint is modelled as `Nat`. -/
def getDayTimestamp (timestamp : Nat) : Nat :=
  timestamp - timestamp % 86400

/-- Embeds the BigInt-based `getHourTimestamp` from src/src/utils/helpers.ts:
`timestamp - (timestamp % 3600n)`. -/
def getHourTimestamp (timestamp : Nat) : Nat :=
  timestamp - timestamp % 3600

/- ============================================================ -/
/- Section 3: IEEE double rounding and the Number-based bucket  -/
/- functions of src/src/index.ts                                -/
/- ============================================================ -/

/-- Rounds a non-negative integer to the nearest IEEE-754 binary64 value
(ties to even), returning the resulting integer. This models JavaScript
`Number(t)` for a non-negative bigint `t` (below the overflow threshold):
integers below `2^53` are exact; above, the value is rounded to a multiple
of `2^e` where `e = bitlength - 53`. -/
def roundToDouble (t : Nat) : Nat :=
  if t < 2 ^ 53 then t
  else
    let e := Nat.log 2 t - 52
    let q := t / 2 ^ e
    let r := t % 2 ^ e
    if 2 * r < 2 ^ e then q * 2 ^ e
    else if 2 ^ e < 2 * r then (q + 1) * 2 ^ e
    else if q % 2 = 0 then q * 2 ^ e else (q + 1) * 2 ^ e

/-- Embeds the Number-based `getDayTimestamp` of src/src/index.ts as the
numeric value of the computed double:
`Number(timestamp) - (Number(timestamp) % 86400)`. The conversion rounds,
the remainder of two integer doubles is exact, and the final subtraction
is rounded again to a representable double. -/
def jsGetDayTimestampVal (timestamp : Nat) : Nat :=
  let x := roundToDouble timestamp
  roundToDouble (x - x % 86400)

/-- Embeds the Number-based `getHourTimestamp` of src/src/index.ts as the
numeric value of the computed double. -/
def jsGetHourTimestampVal (timestamp : Nat) : Nat :=
  let x := roundToDouble timestamp
  roundToDouble (x - x % 3600)

/-- Embeds the string returned by the Number-based `getDayTimestamp` of
src/src/index.ts (`day.toString()`). For the integer doubles produced here
(all below `10^21`), JavaScript prints a decimal numeral denoting a number
that rounds back to the same double, and below `2^53` that numeral is the
exact decimal representation modelled by `decStr`. -/
def jsGetDayTimestamp (timestamp : Nat) : String :=
  decStr (jsGetDayTimestampVal timestamp)

/-- Embeds the string returned by the Number-based `getHourTimestamp` of
src/src/index.ts. -/
def jsGetHourTimestamp (timestamp : Nat) : String :=
  decStr (jsGetHourTimestampVal timestamp)

/- ============================================================ -/
/- Section 4: numerical helpers of the handlers                 -/
/- ============================================================ -/

/-- Embeds `computeYesChanceFromCollateral` from the PariMutuel handler file
(src/unnamed/part_012, lines 19-27): with `total` the sum of the two
collateral pools, returns `500_000_000n` when `total <= 0n` and otherwise
`totalCollateralYes * 1_000_000_000n / total` (bigint division). -/
def computeYesChanceFromCollateral (totalCollateralYes totalCollateralNo : Int) : Int :=
  let total := totalCollateralYes + totalCollateralNo
  if total ≤ 0 then 500000000 else totalCollateralYes * 1000000000 / total

/-- Embeds the market-TVL update of the PredictionAMM:LiquidityRemoved
handler (src/src/index.ts lines 799-801):
`market.currentTvl > collateralToReturn ? market.currentTvl - collateralToReturn : 0n`. -/
def liquidityRemovedNewTvl (currentTvl collateralToReturn : Int) : Int :=
  if collateralToReturn < currentTvl then currentTvl - collateralToReturn else 0

/-- Embeds the platform-liquidity update of the PredictionAMM:LiquidityRemoved
handler (src/src/index.ts lines 812-814):
`stats.totalLiquidity > collateralToReturn ? stats.totalLiquidity - collateralToReturn : 0n`. -/
def liquidityRemovedNewLiquidity (totalLiquidity collateralToReturn : Int) : Int :=
  if collateralToReturn < totalLiquidity then totalLiquidity - collateralToReturn else 0

/-- Position amounts stored in a `userMarketPositions` row, as read and
written by `reducePosition` in src/src/services/positions.ts. -/
structure PositionAmounts where
  yesTokens : Int
  yesAmount : Int
  noTokens : Int
  noAmount : Int
  deriving DecidableEq

/-- Embeds the field computation of `reducePosition`
(src/src/services/positions.ts lines 108-151): for a sale of `tokenAmount`
tokens on `side` ("yes" or "no"), the sold tokens are capped at the held
amount, the collateral is reduced proportionally
(`existing.yesAmount * tokensToReduce / existing.yesTokens`), and the new
collateral is clamped at zero. -/
def reducePositionCalc (side : String) (tokenAmount : Int) (p : PositionAmounts) :
    PositionAmounts :=
  if side = "yes" ∧ 0 < p.yesTokens then
    let tokensToReduce := if p.yesTokens < tokenAmount then p.yesTokens else tokenAmount
    let proportionalAmountReduction :=
      if 0 < p.yesTokens then p.yesAmount * tokensToReduce / p.yesTokens else 0
    { p with
      yesTokens := p.yesTokens - tokensToReduce
      yesAmount :=
        if proportionalAmountReduction < p.yesAmount then
          p.yesAmount - proportionalAmountReduction
        else 0 }
  else if side = "no" ∧ 0 < p.noTokens then
    let tokensToReduce := if p.noTokens < tokenAmount then p.noTokens else tokenAmount
    let proportionalAmountReduction :=
      if 0 < p.noTokens then p.noAmount * tokensToReduce / p.noTokens else 0
    { p with
      noTokens := p.noTokens - tokensToReduce
      noAmount :=
        if proportionalAmountReduction < p.noAmount then
          p.noAmount - proportionalAmountReduction
        else 0 }
  else p

/- ============================================================ -/
/- Section 5: business row ids                                  -/
/- ============================================================ -/

/-- Embeds the trade row id of the PariMutuel handlers
(src/unnamed/part_012 lines 50-54):
`makeId(chain.chainId, event.transaction.hash, event.log.logIndex)`. -/
def tradeRowId (chainId : Nat) (txHash : String) (logIndex : Nat) : String :=
  makeId chainId [txHash, decStr logIndex]

/-- Embeds the `oracleFeeEvents` row id of the oracle fee handlers
(src/src/handlers/oracle.ts line 138):
`makeId(chain.chainId, event.transaction.hash, event.log.logIndex)`. -/
def oracleFeeEventRowId (chainId : Nat) (txHash : String) (logIndex : Nat) : String :=
  makeId chainId [txHash, decStr logIndex]

/-- Embeds the `users` row id used throughout the handlers
(e.g. src/src/handlers/oracle.ts line 88):
`makeId(chain.chainId, address.toLowerCase())`. -/
def usersRowId (chainId : Nat) (address : String) : String :=
  makeId chainId [address]

/-- Embeds the `markets` row id used by the factory handlers
(src/src/handlers/factory.ts lines 28-29): the bare `marketAddress` with no
chain component. -/
def marketsRowId (chainId : Nat) (marketAddress : String) : String :=
  marketAddress

/-- Embeds the `polls` row id used by the PollCreated handler
(src/src/handlers/oracle.ts lines 57-58): the bare `pollAddress` with no
chain component. -/
def pollsRowId (chainId : Nat) (pollAddress : String) : String :=
  pollAddress

/- ============================================================ -/
/- Section 6: on-chain read requests issued by handler code     -/
/- ============================================================ -/

/-- Embeds one `context.client.readContract({...})` request: the target
address, the called view function, and the explicit `blockNumber` field of
the request (`none` when the call site omits it; the framework's reader
then supplies the block number of the event being processed — see
`effectiveReadBlock`). -/
structure ReadCall where
  address : String
  functionName : String
  blockNumber : Option Nat
  deriving DecidableEq

/-- Modelled from the spec: the On-chain State Reader of spec §4.8 always
pins a read to the block number of the event being processed and has no
latest-block mode; Ponder's `context.client` implements this by injecting
the processed event's block number into every `readContract` request whose
call site omits `blockNumber`. The block a request is actually served at
is therefore the explicit field when present and the event's block
otherwise. -/
def effectiveReadBlock (eventBlockNumber : Nat) (r : ReadCall) : Nat :=
  r.blockNumber.getD eventBlockNumber

/-- Embeds the two reads of the PredictionOracle:PollCreated handler
(src/src/handlers/oracle.ts lines 24-39): `getPollData` on the poll and
`getCurrentCheckEpoch` on the oracle, both with
`blockNumber: event.block.number`. -/
def pollCreatedReads (pollAddress oracleAddress : String) (blockNumber : Nat) :
    List ReadCall :=
  [⟨pollAddress, "getPollData", some blockNumber⟩,
   ⟨oracleAddress, "getCurrentCheckEpoch", some blockNumber⟩]

/-- Embeds the two reads of the MarketFactory:PariMutuelCreated handler
(src/src/handlers/factory.ts lines 150-164): `marketStartTimestamp` and
`marketCloseTimestamp` on the market, both with
`blockNumber: event.block.number`. -/
def pariMutuelCreatedReads (marketAddress : String) (blockNumber : Nat) :
    List ReadCall :=
  [⟨marketAddress, "marketStartTimestamp", some blockNumber⟩,
   ⟨marketAddress, "marketCloseTimestamp", some blockNumber⟩]

/-- Embeds the read of the PredictionPariMutuel:ProtocolFeesWithdrawn
handler (src/unnamed/part_012 lines 407-412): `marketState` on the market
with `blockNumber: event.block.number`. -/
def protocolFeesWithdrawnReads (marketAddress : String) (blockNumber : Nat) :
    List ReadCall :=
  [⟨marketAddress, "marketState", some blockNumber⟩]

/-- Embeds the five reads of `fetchAmmMarketData`
(src/src/services/db.ts lines 117-160). None of the five `readContract`
calls passes an explicit `blockNumber`, so each request carries `none` and
the framework's reader pins it to the processed event's block. -/
def fetchAmmMarketDataReads (marketAddress : String) : List ReadCall :=
  [⟨marketAddress, "pollAddress", none⟩,
   ⟨marketAddress, "creator", none⟩,
   ⟨marketAddress, "collateralToken", none⟩,
   ⟨marketAddress, "yesToken", none⟩,
   ⟨marketAddress, "noToken", none⟩]

/-- Embeds the five reads of `fetchPariMarketData`
(src/src/services/db.ts lines 165-205). None of the five `readContract`
calls passes an explicit `blockNumber`, so each is likewise pinned to the
processed event's block by the framework's reader. -/
def fetchPariMarketDataReads (marketAddress : String) : List ReadCall :=
  [⟨marketAddress, "pollAddress", none⟩,
   ⟨marketAddress, "creator", none⟩,
   ⟨marketAddress, "collateralToken", none⟩,
   ⟨marketAddress, "curveFlattener", none⟩,
   ⟨marketAddress, "curveOffset", none⟩]

/-- Embeds the reads performed by `getOrCreateMinimalMarket`
(src/src/services/db.ts lines 213-304) while handling a child event: no
reads when the market row already exists, otherwise the backfill reads of
`fetchAmmMarketData` or `fetchPariMarketData` according to the market
type. -/
def getOrCreateMinimalMarketReads (marketExists : Bool) (marketType : String)
    (marketAddress : String) : List ReadCall :=
  if marketExists then []
  else if marketType = "amm" then fetchAmmMarketDataReads marketAddress
  else fetchPariMarketDataReads marketAddress

/- ============================================================ -/
/- Section 7: markets rows and the factory upsert branches      -/
/- ============================================================ -/

/-- Embeds a `markets` row as written by the handlers. Fields that some
write path leaves unset (and that readers access through `?? 0n` or
optional schema columns) are `Option`-valued; fields set by every write
path and read bare are plain. -/
structure MarketRow where
  chainId : Nat
  chainName : String
  pollAddress : String
  creator : String
  marketType : String
  isIncomplete : Bool
  collateralToken : String
  yesToken : Option String := none
  noToken : Option String := none
  feeTier : Option Nat := none
  maxPriceImbalancePerHour : Option Nat := none
  curveFlattener : Option Nat := none
  curveOffset : Option Nat := none
  marketStartTimestamp : Option Int := none
  marketCloseTimestamp : Option Int := none
  totalVolume : Int
  volume24h : Option Int := none
  totalTrades : Nat
  currentTvl : Int
  uniqueTraders : Nat
  initialLiquidity : Option Int := none
  totalCollateralYes : Option Int := none
  totalCollateralNo : Option Int := none
  totalSharesYes : Option Int := none
  totalSharesNo : Option Int := none
  reserveYes : Option Int := none
  reserveNo : Option Int := none
  yesChance : Option Int := none
  creatorFeesEarned : Option Int := none
  platformFeesEarned : Option Int := none
  createdAtBlock : Nat
  createdAt : Nat
  createdTxHash : String
  deriving DecidableEq

/-- Decoded arguments of a MarketFactory:MarketCreated event. -/
structure MarketCreatedArgs where
  pollAddress : String
  marketAddress : String
  creator : String
  yesToken : String
  noToken : String
  collateral : String
  feeTier : Nat
  maxPriceImbalancePerHour : Nat
  deriving DecidableEq

/-- Models JavaScript `String.prototype.toLowerCase` on the ASCII strings
(hex addresses) it is applied to in the handlers. -/
def lowerStr (s : String) : String :=
  ⟨s.data.map Char.toLower⟩

/-- Embeds the `create` branch of the `markets.upsert` in the
MarketFactory:MarketCreated handler (src/src/handlers/factory.ts lines
30-56). -/
def marketCreatedCreateRow (chainId : Nat) (chainName : String)
    (a : MarketCreatedArgs) (blockNumber timestamp : Nat) (txHash : String) :
    MarketRow :=
  { chainId := chainId
    chainName := chainName
    pollAddress := a.pollAddress
    creator := lowerStr a.creator
    marketType := "amm"
    isIncomplete := false
    collateralToken := a.collateral
    yesToken := some a.yesToken
    noToken := some a.noToken
    feeTier := some a.feeTier
    maxPriceImbalancePerHour := some a.maxPriceImbalancePerHour
    totalVolume := 0
    volume24h := some 0
    totalTrades := 0
    currentTvl := 0
    uniqueTraders := 0
    initialLiquidity := some 0
    reserveYes := some 0
    reserveNo := some 0
    yesChance := some 500000000
    creatorFeesEarned := some 0
    platformFeesEarned := some 0
    createdAtBlock := blockNumber
    createdAt := timestamp
    createdTxHash := txHash }

/-- Embeds the `update` branch of the `markets.upsert` in the
MarketFactory:MarketCreated handler (src/src/handlers/factory.ts lines
57-84): metadata fields are overwritten from the event, accumulated fields
are copied from `current` (with `?? 0n` defaults for optional ones), and
fields not mentioned in the returned patch keep their current values. -/
def marketCreatedUpdateBranch (chainId : Nat) (chainName : String)
    (a : MarketCreatedArgs) (blockNumber timestamp : Nat) (txHash : String)
    (current : MarketRow) : MarketRow :=
  { current with
    chainId := chainId
    chainName := chainName
    pollAddress := a.pollAddress
    creator := lowerStr a.creator
    marketType := "amm"
    isIncomplete := false
    collateralToken := a.collateral
    yesToken := some a.yesToken
    noToken := some a.noToken
    feeTier := some a.feeTier
    maxPriceImbalancePerHour := some a.maxPriceImbalancePerHour
    totalVolume := current.totalVolume
    volume24h := some (current.volume24h.getD 0)
    totalTrades := current.totalTrades
    currentTvl := current.currentTvl
    uniqueTraders := current.uniqueTraders
    initialLiquidity := some (current.initialLiquidity.getD 0)
    reserveYes := some (current.reserveYes.getD 0)
    reserveNo := some (current.reserveNo.getD 0)
    yesChance := some (current.yesChance.getD 500000000)
    creatorFeesEarned := some (current.creatorFeesEarned.getD 0)
    platformFeesEarned := some (current.platformFeesEarned.getD 0)
    createdAtBlock := blockNumber
    createdAt := timestamp
    createdTxHash := txHash }

/-- Decoded arguments of a MarketFactory:PariMutuelCreated event. -/
structure PariMutuelCreatedArgs where
  pollAddress : String
  marketAddress : String
  creator : String
  collateral : String
  curveFlattener : Nat
  curveOffset : Nat
  deriving DecidableEq

/-- Embeds the `create` branch of the `markets.upsert` in the
MarketFactory:PariMutuelCreated handler (src/src/handlers/factory.ts lines
170-196). The two timestamps come from the pinned on-chain reads. -/
def pariMutuelCreatedCreateRow (chainId : Nat) (chainName : String)
    (a : PariMutuelCreatedArgs) (marketStartTimestamp marketCloseTimestamp : Int)
    (blockNumber timestamp : Nat) (txHash : String) : MarketRow :=
  { chainId := chainId
    chainName := chainName
    pollAddress := a.pollAddress
    creator := lowerStr a.creator
    marketType := "pari"
    isIncomplete := false
    collateralToken := a.collateral
    curveFlattener := some a.curveFlattener
    curveOffset := some a.curveOffset
    marketStartTimestamp := some marketStartTimestamp
    marketCloseTimestamp := some marketCloseTimestamp
    totalVolume := 0
    volume24h := some 0
    totalTrades := 0
    currentTvl := 0
    uniqueTraders := 0
    initialLiquidity := some 0
    totalCollateralYes := some 0
    totalCollateralNo := some 0
    yesChance := some 500000000
    creatorFeesEarned := some 0
    platformFeesEarned := some 0
    createdAtBlock := blockNumber
    createdAt := timestamp
    createdTxHash := txHash }

/-- Embeds the `update` branch of the `markets.upsert` in the
MarketFactory:PariMutuelCreated handler (src/src/handlers/factory.ts lines
197-235), including the recomputation of `yesChance` from the preserved
collateral pools. -/
def pariMutuelCreatedUpdateBranch (chainId : Nat) (chainName : String)
    (a : PariMutuelCreatedArgs) (marketStartTimestamp marketCloseTimestamp : Int)
    (blockNumber timestamp : Nat) (txHash : String) (current : MarketRow) :
    MarketRow :=
  let totalYes := current.totalCollateralYes.getD 0
  let totalNo := current.totalCollateralNo.getD 0
  let total := totalYes + totalNo
  let correctedYesChance :=
    if 0 < total then totalYes * 1000000000 / total else 500000000
  { current with
    chainId := chainId
    chainName := chainName
    pollAddress := a.pollAddress
    creator := lowerStr a.creator
    marketType := "pari"
    isIncomplete := false
    collateralToken := a.collateral
    curveFlattener := some a.curveFlattener
    curveOffset := some a.curveOffset
    marketStartTimestamp := some marketStartTimestamp
    marketCloseTimestamp := some marketCloseTimestamp
    totalVolume := current.totalVolume
    volume24h := some (current.volume24h.getD 0)
    totalTrades := current.totalTrades
    currentTvl := current.currentTvl
    uniqueTraders := current.uniqueTraders
    initialLiquidity := some (current.initialLiquidity.getD 0)
    totalCollateralYes := some totalYes
    totalCollateralNo := some totalNo
    yesChance := some correctedYesChance
    creatorFeesEarned := some (current.creatorFeesEarned.getD 0)
    platformFeesEarned := some (current.platformFeesEarned.getD 0)
    createdAtBlock := blockNumber
    createdAt := timestamp
    createdTxHash := txHash }

/-- Embeds the AMM branch of the backfill create in
`getOrCreateMinimalMarket` (src/src/services/db.ts lines 241-265): the row
is marked incomplete, `feeTier` and `maxPriceImbalancePerHour` default to
0, the accumulated stats start at zero, and `volume24h` (among others) is
not set. -/
def minimalAmmMarketRow (chainId : Nat) (chainName : String)
    (pollAddress creator collateralToken yesToken noToken : String)
    (blockNumber timestamp : Nat) (txHash : String) : MarketRow :=
  { chainId := chainId
    chainName := chainName
    isIncomplete := true
    pollAddress := lowerStr pollAddress
    creator := lowerStr creator
    marketType := "amm"
    collateralToken := lowerStr collateralToken
    yesToken := some (lowerStr yesToken)
    noToken := some (lowerStr noToken)
    feeTier := some 0
    maxPriceImbalancePerHour := some 0
    totalVolume := 0
    totalTrades := 0
    currentTvl := 0
    uniqueTraders := 0
    initialLiquidity := some 0
    createdAtBlock := blockNumber
    createdAt := timestamp
    createdTxHash := txHash }

/- ============================================================ -/
/- Section 8: the transactional data store seen by handlers     -/
/- ============================================================ -/

/-- Errors of the transactional data store, per the contract of spec §4.7:
`create` fails with `duplicateKey` exactly when the id exists, `update`
fails with `notFound` exactly when it is absent. -/
inductive DbError where
  | duplicateKey
  | notFound
  deriving DecidableEq

/-- Message of a data-store error as observed by the handlers through
`error.message`. A `duplicateKey` failure surfaces as a Prisma P2002
unique-constraint violation, whose message contains the phrase
matched by the handlers. -/
def dbErrorMessage : DbError → String
  | .duplicateKey => "Unique constraint failed on the fields (P2002)"
  | .notFound => "Record to update not found"

deriving instance DecidableEq for Except

/-- Handler computations over a store of type `σ`: JavaScript async
functions that may throw a `DbError` and whose database writes persist
(within the enclosing transaction) even when an error is thrown later. -/
def DbM (σ : Type) (α : Type) : Type :=
  σ → Except DbError α × σ

instance : Monad (DbM σ) where
  pure a := fun s => (.ok a, s)
  bind x f := fun s =>
    match x s with
    | (.ok a, s1) => f a s1
    | (.error e, s1) => (.error e, s1)

/-- Runs a handler computation on a store. -/
def DbM.run (x : DbM σ α) (s : σ) : Except DbError α × σ :=
  x s

/-- Models a JavaScript `try { body } catch (err) { handler }` block: the
writes made by `body` before a thrown error remain visible. -/
def DbM.tryCatch (x : DbM σ α) (h : DbError → DbM σ α) : DbM σ α :=
  fun s =>
    match x s with
    | (.ok a, s1) => (.ok a, s1)
    | (.error e, s1) => h e s1

/-- Models a JavaScript `throw`. -/
def DbM.throw (e : DbError) : DbM σ α :=
  fun s => (.error e, s)

/-- Modelled from the spec: `withRetry` lives in src/utils/errors.ts, which
is not part of the provided sources. Per spec §9 it is a retry policy that
re-invokes the wrapped action on failure; on the deterministic in-memory
store modelled here a failed action fails identically on every retry, so
the wrapper returns the first attempt's outcome. -/
def withRetry (x : DbM σ α) : DbM σ α :=
  x

/-- Looks a row up in an association-list table (first match wins, as in a
keyed table without duplicate ids). -/
def rowsFind (t : List (String × ρ)) (id : String) : Option ρ :=
  match t with
  | [] => none
  | (k, v) :: tl => if k = id then some v else rowsFind tl id

/-- Replaces the row stored under `id` (models a keyed UPDATE). -/
def rowsReplace (t : List (String × ρ)) (id : String) (r : ρ) :
    List (String × ρ) :=
  t.map fun p => if p.1 = id then (id, r) else p

/- ============================================================ -/
/- Section 9: checkAndRecordMarketInteraction (services/db.ts)  -/
/- ============================================================ -/

/-- Embeds a `marketUsers` row as created by
`checkAndRecordMarketInteraction` (src/src/services/db.ts lines 81-89). -/
structure MarketUserRow where
  chainId : Nat
  marketAddress : String
  user : String
  lastTradeAt : Nat
  deriving DecidableEq

/-- Store fragment touched by `checkAndRecordMarketInteraction`: the
`marketUsers` table keyed by `chainId-marketAddress-traderAddress`. -/
structure MarketUsersStore where
  marketUsers : List (String × MarketUserRow)
  deriving DecidableEq

/-- Embeds `context.db.marketUsers.create` under the spec §4.7 contract:
fails with `duplicateKey` exactly when the id exists. -/
def marketUsersCreate (id : String) (r : MarketUserRow) :
    DbM MarketUsersStore Unit :=
  fun s =>
    match rowsFind s.marketUsers id with
    | some _ => (.error .duplicateKey, s)
    | none => (.ok (), { s with marketUsers := (id, r) :: s.marketUsers })

/-- Embeds `context.db.marketUsers.update` (patching only `lastTradeAt`)
under the spec §4.7 contract: fails with `notFound` exactly when the id is
absent. -/
def marketUsersUpdateLastTradeAt (id : String) (timestamp : Nat) :
    DbM MarketUsersStore Unit :=
  fun s =>
    match rowsFind s.marketUsers id with
    | none => (.error .notFound, s)
    | some u =>
        (.ok (),
         { s with
           marketUsers :=
             rowsReplace s.marketUsers id { u with lastTradeAt := timestamp } })

/-- Models JavaScript `haystack.includes(needle)`: `true` when `needle`
occurs as a contiguous substring of `haystack`. -/
def charsInclude (needle : List Char) : List Char → Bool
  | [] => needle.isEmpty
  | c :: tl => needle.isPrefixOf (c :: tl) || charsInclude needle tl

/-- Embeds the unique-constraint test of the catch block in
`checkAndRecordMarketInteraction` (src/src/services/db.ts lines 93-94):
`errorMessage.includes('unique constraint') || errorMessage.includes('p2002')`
on the lowercased error message. -/
def isUniqueConstraintViolation (e : DbError) : Bool :=
  let msg := (lowerStr (dbErrorMessage e)).data
  charsInclude "unique constraint".data msg || charsInclude "p2002".data msg

/-- Embeds `checkAndRecordMarketInteraction`
(src/src/services/db.ts lines 69-108): try to create the `marketUsers`
row and return `true`; on a unique-constraint violation update only
`lastTradeAt` and return `false`; rethrow any other error. -/
def checkAndRecordMarketInteraction (chainId : Nat)
    (marketAddress traderAddress : String) (timestamp : Nat) :
    DbM MarketUsersStore Bool :=
  let id := makeId chainId [marketAddress, traderAddress]
  withRetry <|
    DbM.tryCatch
      (do
        marketUsersCreate id
          { chainId := chainId
            marketAddress := marketAddress
            user := traderAddress
            lastTradeAt := timestamp }
        pure true)
      (fun e =>
        if isUniqueConstraintViolation e then do
          marketUsersUpdateLastTradeAt id timestamp
          pure false
        else DbM.throw e)

/- ============================================================ -/
/- Section 10: users rows and the aggregate stats service       -/
/- ============================================================ -/

/-- Embeds a `users` row with the fields of `DEFAULT_USER_STATS`
(src/src/services/db.ts lines 15-28) plus identity and activity fields. -/
structure UserRow where
  chainId : Nat
  chainName : String
  address : String
  totalTrades : Nat := 0
  totalVolume : Int := 0
  totalWinnings : Int := 0
  totalDeposited : Int := 0
  totalWithdrawn : Int := 0
  realizedPnL : Int := 0
  totalWins : Nat := 0
  totalLosses : Nat := 0
  currentStreak : Int := 0
  bestStreak : Nat := 0
  marketsCreated : Nat := 0
  pollsCreated : Nat := 0
  deriving DecidableEq

/-- Per-chain platform statistics counters used by the handlers' calls to
`updateAggregateStats`. -/
structure StatsRow where
  totalPolls : Nat := 0
  totalMarkets : Nat := 0
  totalAmmMarkets : Nat := 0
  totalPariMarkets : Nat := 0
  deriving DecidableEq

/-- Deltas passed to `updateAggregateStats` by the handlers modelled here
(e.g. `{ polls: 1 }`, `{ markets: 1, ammMarkets: 1 }`). -/
structure StatsDelta where
  polls : Nat := 0
  markets : Nat := 0
  ammMarkets : Nat := 0
  pariMarkets : Nat := 0
  deriving DecidableEq

/- ============================================================ -/
/- Section 11: the PredictionOracle:PollCreated handler         -/
/- ============================================================ -/

/-- Embeds a `polls` row as created by the PredictionOracle:PollCreated
handler (src/src/handlers/oracle.ts lines 57-78). -/
structure PollRow where
  chainId : Nat
  chainName : String
  creator : String
  arbiter : String
  question : String
  rules : String
  sources : String
  deadlineEpoch : Nat
  finalizationEpoch : Nat
  checkEpoch : Nat
  category : Nat
  status : Nat
  resolutionReason : String
  arbitrationStarted : Bool
  createdAtBlock : Nat
  createdAt : Nat
  createdTxHash : String
  deriving DecidableEq

/-- Result of the pinned `getPollData` read on a poll contract, with
`sources` already in its JSON-serialized string form. -/
structure PollData where
  category : Nat
  rules : String
  sources : String
  finalizationEpoch : Nat
  arbiter : String
  status : Nat
  resolutionReason : String

/-- On-chain state reader available to the PollCreated handler: both reads
are pinned to the block number passed as the last argument. -/
structure OracleClient where
  getPollData : String → Nat → PollData
  getCurrentCheckEpoch : String → String → Nat → Nat

/-- Decoded PredictionOracle:PollCreated event together with the log and
transaction metadata used by the handler. -/
structure PollCreatedEvent where
  pollAddress : String
  creator : String
  deadlineEpoch : Nat
  question : String
  blockNumber : Nat
  timestamp : Nat
  txHash : String
  oracleAddress : String
  deriving DecidableEq

/-- Chain metadata from `getChainInfo(context)`. -/
structure ChainInfo where
  chainId : Nat
  chainName : String
  deriving DecidableEq

/-- Store fragment touched by the PollCreated handler: `polls`, `users`
and the per-chain aggregate statistics row. -/
structure OracleStore where
  polls : List (String × PollRow) := []
  users : List (String × UserRow) := []
  platformStats : List (String × StatsRow) := []
  deriving DecidableEq

/-- Embeds `context.db.polls.create` under the spec §4.7 contract. -/
def pollsCreate (id : String) (r : PollRow) : DbM OracleStore Unit :=
  fun s =>
    match rowsFind s.polls id with
    | some _ => (.error .duplicateKey, s)
    | none => (.ok (), { s with polls := (id, r) :: s.polls })

/-- Embeds `getOrCreateUser` (src/src/services/db.ts lines 34-54): a
`users.upsert` whose create branch installs `DEFAULT_USER_STATS` and whose
update branch is a no-op, returning the resulting row. -/
def getOrCreateUser (chain : ChainInfo) (address : String) :
    DbM OracleStore UserRow :=
  let normalizedAddress := lowerStr address
  let id := makeId chain.chainId [normalizedAddress]
  withRetry fun s =>
    match rowsFind s.users id with
    | some u => (.ok u, s)
    | none =>
        let u : UserRow :=
          { chainId := chain.chainId
            chainName := chain.chainName
            address := normalizedAddress }
        (.ok u, { s with users := (id, u) :: s.users })

/-- Embeds `context.db.users.update` with a field patch, under the spec
§4.7 contract. -/
def usersUpdate (id : String) (patch : UserRow → UserRow) :
    DbM OracleStore Unit :=
  fun s =>
    match rowsFind s.users id with
    | none => (.error .notFound, s)
    | some u =>
        (.ok (), { s with users := rowsReplace s.users id (patch u) })

/-- Modelled from the spec: `updateAggregateStats` lives in
src/src/services/stats.ts, which is not part of the provided sources. Per
the handlers' call sites and the README's stats tables it upserts the
chain's `platformStats` row and adds the passed deltas to its counters. -/
def updateAggregateStats (chain : ChainInfo) (d : StatsDelta) :
    DbM OracleStore Unit :=
  let id := decStr chain.chainId
  fun s =>
    match rowsFind s.platformStats id with
    | none =>
        (.ok (),
         { s with
           platformStats :=
             (id,
              { totalPolls := d.polls
                totalMarkets := d.markets
                totalAmmMarkets := d.ammMarkets
                totalPariMarkets := d.pariMarkets }) :: s.platformStats })
    | some r =>
        (.ok (),
         { s with
           platformStats :=
             rowsReplace s.platformStats id
               { totalPolls := r.totalPolls + d.polls
                 totalMarkets := r.totalMarkets + d.markets
                 totalAmmMarkets := r.totalAmmMarkets + d.ammMarkets
                 totalPariMarkets := r.totalPariMarkets + d.pariMarkets } })

/-- Models `s.slice(0, 4096)` on a string. -/
def slice4096 (s : String) : String :=
  ⟨s.data.take 4096⟩

/-- Embeds the user-and-stats step of the PollCreated handler
(src/src/handlers/oracle.ts lines 85-97): `getOrCreateUser`, then a
read-then-write increment of `pollsCreated`, then the aggregate stats
update. -/
def pollCreatedUserStatsStep (chain : ChainInfo) (e : PollCreatedEvent) :
    DbM OracleStore Unit := do
  let user ← getOrCreateUser chain e.creator
  usersUpdate (makeId chain.chainId [lowerStr e.creator])
    (fun u => { u with pollsCreated := user.pollsCreated + 1 })
  updateAggregateStats chain { polls := 1 }

/-- Embeds the PredictionOracle:PollCreated handler
(src/src/handlers/oracle.ts lines 8-102): the two pinned reads (whose
errors are rethrown), `polls.create` (whose errors are rethrown), and the
user/stats step whose catch block deliberately swallows errors because the
poll is already saved. -/
def pollCreatedHandler (client : OracleClient) (chain : ChainInfo)
    (e : PollCreatedEvent) : DbM OracleStore Unit := do
  let pollData := client.getPollData e.pollAddress e.blockNumber
  let checkEpochRaw := client.getCurrentCheckEpoch e.oracleAddress e.pollAddress e.blockNumber
  pollsCreate e.pollAddress
    { chainId := chain.chainId
      chainName := chain.chainName
      creator := lowerStr e.creator
      arbiter := lowerStr pollData.arbiter
      question := slice4096 e.question
      rules := slice4096 pollData.rules
      sources := pollData.sources
      deadlineEpoch := e.deadlineEpoch
      finalizationEpoch := pollData.finalizationEpoch
      checkEpoch := checkEpochRaw
      category := pollData.category
      status := pollData.status
      resolutionReason := slice4096 pollData.resolutionReason
      arbitrationStarted := false
      createdAtBlock := e.blockNumber
      createdAt := e.timestamp
      createdTxHash := e.txHash }
  DbM.tryCatch (pollCreatedUserStatsStep chain e) (fun _ => pure ())

/- ============================================================ -/
/- Section 12: the MarketFactory:MarketCreated handler          -/
/- ============================================================ -/

/-- Embeds a `marketSystems` row as created by the factory handlers
(src/src/handlers/factory.ts lines 109-116). -/
structure MarketSystemRow where
  creator : String
  system : String
  switchedAt : Option Nat
  deriving DecidableEq

/-- Poll TVL aggregate fields written by `updatePollTvl`
(src/src/services/pollTvl.ts). -/
structure PollTvlRow where
  maxMarketTvl : Int := 0
  totalMarketsTvl : Int := 0
  deriving DecidableEq

/-- Store fragment touched by the MarketFactory:MarketCreated handler. -/
structure FactoryStore where
  markets : List (String × MarketRow) := []
  users : List (String × UserRow) := []
  platformStats : List (String × StatsRow) := []
  polls : List (String × PollTvlRow) := []
  graduatedCreators : List (String × Unit) := []
  marketSystems : List (String × MarketSystemRow) := []
  deriving DecidableEq

/-- Embeds `context.db.markets.upsert` under the spec §4.7 contract: never
fails; applies the create row when the id is absent and the update
function to the current row when present. -/
def marketsUpsert (id : String) (createRow : MarketRow)
    (updateFn : MarketRow → MarketRow) : DbM FactoryStore Unit :=
  fun s =>
    match rowsFind s.markets id with
    | none => (.ok (), { s with markets := (id, createRow) :: s.markets })
    | some current =>
        (.ok (), { s with markets := rowsReplace s.markets id (updateFn current) })

/-- Embeds `getOrCreateUser` against the factory store (same source
function as `getOrCreateUser`, src/src/services/db.ts lines 34-54). -/
def getOrCreateUserF (chain : ChainInfo) (address : String) :
    DbM FactoryStore UserRow :=
  let normalizedAddress := lowerStr address
  let id := makeId chain.chainId [normalizedAddress]
  withRetry fun s =>
    match rowsFind s.users id with
    | some u => (.ok u, s)
    | none =>
        let u : UserRow :=
          { chainId := chain.chainId
            chainName := chain.chainName
            address := normalizedAddress }
        (.ok u, { s with users := (id, u) :: s.users })

/-- Embeds `context.db.users.update` against the factory store. -/
def usersUpdateF (id : String) (patch : UserRow → UserRow) :
    DbM FactoryStore Unit :=
  fun s =>
    match rowsFind s.users id with
    | none => (.error .notFound, s)
    | some u =>
        (.ok (), { s with users := rowsReplace s.users id (patch u) })

/-- Modelled from the spec: `updateAggregateStats` against the factory
store (src/src/services/stats.ts is not part of the provided sources; see
`updateAggregateStats`). -/
def updateAggregateStatsF (chain : ChainInfo) (d : StatsDelta) :
    DbM FactoryStore Unit :=
  let id := decStr chain.chainId
  fun s =>
    match rowsFind s.platformStats id with
    | none =>
        (.ok (),
         { s with
           platformStats :=
             (id,
              { totalPolls := d.polls
                totalMarkets := d.markets
                totalAmmMarkets := d.ammMarkets
                totalPariMarkets := d.pariMarkets }) :: s.platformStats })
    | some r =>
        (.ok (),
         { s with
           platformStats :=
             rowsReplace s.platformStats id
               { totalPolls := r.totalPolls + d.polls
                 totalMarkets := r.totalMarkets + d.markets
                 totalAmmMarkets := r.totalAmmMarkets + d.ammMarkets
                 totalPariMarkets := r.totalPariMarkets + d.pariMarkets } })

/-- Embeds `context.db.polls.update` for the TVL fields, under the spec
§4.7 contract. -/
def pollsUpdateTvl (id : String) (maxTvl totalTvl : Int) :
    DbM FactoryStore Unit :=
  fun s =>
    match rowsFind s.polls id with
    | none => (.error .notFound, s)
    | some _ =>
        (.ok (),
         { s with
           polls :=
             rowsReplace s.polls id
               { maxMarketTvl := maxTvl, totalMarketsTvl := totalTvl } })

/-- Embeds `updatePollTvl` (src/src/services/pollTvl.ts): aggregates
`currentTvl` over the markets of the poll and writes the poll row, with
its own catch block that swallows every error (a best-effort update). -/
def updatePollTvl (pollAddress : String) : DbM FactoryStore Unit :=
  DbM.tryCatch
    (fun s =>
      let ms := (s.markets.filter fun p => p.2.pollAddress = lowerStr pollAddress).map (·.2)
      if ms.isEmpty then
        pollsUpdateTvl (lowerStr pollAddress) 0 0 s
      else
        let maxTvl := ms.foldl (fun acc m => if acc < m.currentTvl then m.currentTvl else acc) 0
        let totalTvl := ms.foldl (fun acc m => acc + m.currentTvl) 0
        pollsUpdateTvl (lowerStr pollAddress) maxTvl totalTvl s)
    (fun _ => pure ())

/-- Embeds `context.db.graduatedCreators.findUnique`. -/
def graduatedCreatorsFindUnique (id : String) :
    DbM FactoryStore (Option Unit) :=
  fun s => (.ok (rowsFind s.graduatedCreators id), s)

/-- Embeds `context.db.marketSystems.create` under the spec §4.7
contract: fails with `duplicateKey` exactly when the id exists. -/
def marketSystemsCreate (id : String) (r : MarketSystemRow) :
    DbM FactoryStore Unit :=
  fun s =>
    match rowsFind s.marketSystems id with
    | some _ => (.error .duplicateKey, s)
    | none => (.ok (), { s with marketSystems := (id, r) :: s.marketSystems })

/-- Decoded MarketCreated event together with the metadata used by the
handler. -/
structure MarketCreatedEvent where
  args : MarketCreatedArgs
  blockNumber : Nat
  timestamp : Nat
  txHash : String
  logIndex : Nat
  deriving DecidableEq

/-- Embeds the body of the MarketFactory:MarketCreated handler
(src/src/handlers/factory.ts lines 11-124), i.e. everything inside the
`try`: the markets upsert, the read-then-write `marketsCreated` increment,
the stats update, the poll-TVL sync, the graduation lookup and the
`marketSystems.create`. -/
def marketCreatedBody (chain : ChainInfo) (e : MarketCreatedEvent) :
    DbM FactoryStore Unit := do
  let a := e.args
  let normalizedCreator := lowerStr a.creator
  marketsUpsert a.marketAddress
    (marketCreatedCreateRow chain.chainId chain.chainName a e.blockNumber
      e.timestamp e.txHash)
    (marketCreatedUpdateBranch chain.chainId chain.chainName a e.blockNumber
      e.timestamp e.txHash)
  let user ← getOrCreateUserF chain a.creator
  usersUpdateF (makeId chain.chainId [normalizedCreator])
    (fun u => { u with marketsCreated := user.marketsCreated + 1 })
  updateAggregateStatsF chain { markets := 1, ammMarkets := 1 }
  updatePollTvl a.pollAddress
  let isGraduated ← graduatedCreatorsFindUnique normalizedCreator
  marketSystemsCreate (lowerStr a.marketAddress)
    { creator := normalizedCreator
      system := if isGraduated.isSome then "localizer" else "pandora"
      switchedAt := if isGraduated.isSome then some e.timestamp else none }

/-- Embeds the MarketFactory:MarketCreated handler
(src/src/handlers/factory.ts lines 10-132): the whole body runs inside a
`try` whose catch block logs the error and returns, so no error leaves the
handler. -/
def marketCreatedHandler (chain : ChainInfo) (e : MarketCreatedEvent) :
    DbM FactoryStore Unit :=
  DbM.tryCatch (marketCreatedBody chain e) (fun _ => pure ())

/- ============================================================ -/
/- Section 13: factory discovery and the dispatch batch         -/
/- ============================================================ -/

/-- Modelled from the spec: a `LogEnvelope` of spec §3, restricted to the
fields the Factory Discovery Resolver and Event Dispatcher use, with `arg`
the address-bearing argument decoded from a creation event. -/
structure LogEnv where
  blk : Nat
  tx : Nat
  idx : Nat
  addr : String
  sig : String
  arg : String
  deriving DecidableEq

/-- Modelled from the spec: a `LogFilter` of spec §3 (address plus start
block) as held by the Log Filter Registry. -/
structure LogFilter where
  addr : String
  startBlock : Nat
  deriving DecidableEq

/-- Modelled from the spec: a `FactoryRule` of spec §3 — the parent
address and the creation event signature whose decoded argument names the
child. -/
structure FactoryRule where
  parent : String
  creationSig : String
  deriving DecidableEq

/-- Embeds the three factory relationships declared in ponder.config.ts
(lines 89-142): PredictionPoll children come from PredictionOracle's
PollCreated event, and PredictionAMM / PredictionPariMutuel children from
MarketFactory's MarketCreated / PariMutuelCreated events. -/
def pandoraFactoryRules (oracleAddress marketFactoryAddress : String) :
    List FactoryRule :=
  [⟨oracleAddress, "PollCreated"⟩,
   ⟨marketFactoryAddress, "MarketCreated"⟩,
   ⟨marketFactoryAddress, "PariMutuelCreated"⟩]

/-- Modelled from the spec: idempotent registration in the Log Filter
Registry (spec §4.2 — registering the same filter twice is a no-op). -/
def registerFilter (f : LogFilter) (fs : List LogFilter) : List LogFilter :=
  if f ∈ fs then fs else f :: fs

/-- Modelled from the spec: the Factory Discovery Resolver step of spec
§4.3 — when a log matches a factory rule's parent and creation signature,
the decoded child address is registered with
`startBlock = event.blockNumber` (not `+1`). -/
def discoverStep (rules : List FactoryRule) (fs : List LogFilter) (l : LogEnv) :
    List LogFilter :=
  rules.foldl
    (fun acc r =>
      if l.addr = r.parent ∧ l.sig = r.creationSig then
        registerFilter ⟨l.arg, l.blk⟩ acc
      else acc)
    fs

/-- Modelled from the spec: a log matches the registry when some active
filter has its address and a start block at or before the log's block. -/
def matchesAny (fs : List LogFilter) (l : LogEnv) : Bool :=
  fs.any fun f => decide (f.addr = l.addr) && decide (f.startBlock ≤ l.blk)

/-- Modelled from the spec: dispatch of one block range (spec §4.3/§4.6) —
the logs of the range are walked in their sorted order; discovery runs
before each log is matched, so a registration made on an earlier log of
the range is visible to later logs; the returned list holds the delivered
logs in order. -/
def runBatch (rules : List FactoryRule) :
    List LogFilter → List LogEnv → List LogEnv
  | _, [] => []
  | fs, l :: rest =>
    let fsNew := discoverStep rules fs l
    if matchesAny fsNew l then l :: runBatch rules fsNew rest
    else runBatch rules fsNew rest

/- ============================================================ -/
/- Section 14: concrete sample scenarios                        -/
/- ============================================================ -/

/-- Sample chain metadata (Ethereum mainnet, per ponder.config.ts). -/
def sampleChain : ChainInfo :=
  ⟨1, "ethereum"⟩

/-- Sample deterministic on-chain state for the PollCreated reads. -/
def sampleOracleClient : OracleClient :=
  ⟨fun _ _ => ⟨2, "r", "[]", 7, "0xArb", 0, ""⟩, fun _ _ _ => 4⟩

/-- Sample PollCreated event. -/
def samplePollEvent : PollCreatedEvent :=
  ⟨"0xa", "0xB", 9, "q", 5, 100, "0xh", "0xo"⟩

/-- Store produced by a committed first run of the PollCreated handler on
an empty store. -/
def sampleCommittedOracleStore : OracleStore :=
  ((pollCreatedHandler sampleOracleClient sampleChain samplePollEvent).run {}).2

/-- Sample MarketCreated event. -/
def sampleMarketCreatedEvent : MarketCreatedEvent :=
  ⟨⟨"0xp", "0xm", "0xB", "0xy", "0xn", "0xc", 30, 100⟩, 50, 1000, "0xh", 2⟩

/-- Factory store in which a `marketSystems` row for the sample market
already exists, so that the handler's final `marketSystems.create`
fails. -/
def sampleSystemsStore : FactoryStore :=
  { marketSystems := [("0xm", ⟨"0xb", "pandora", none⟩)] }

/- ============================================================ -/
/- Theorems                                                     -/
/- ============================================================ -/

theorem DbM.bind_def (x : DbM σ α) (f : α → DbM σ β) (s : σ) :
    (x >>= f) s =
      match x s with
      | (.ok a, s1) => f a s1
      | (.error e, s1) => (.error e, s1) := rfl

theorem DbM.pure_def (a : α) (s : σ) : (pure a : DbM σ α) s = (.ok a, s) := rfl

theorem decCharsAux_spec :
    ∀ fuel n : Nat, n < fuel → 0 < n →
      decCharsAux fuel n = ((Nat.digits 10 n).map Nat.digitChar).reverse := by
  intro fuel
  induction fuel with
  | zero => intro n h; omega
  | succ f ih =>
    intro n hn hpos
    by_cases h10 : n < 10
    · rw [decCharsAux, if_pos h10]
      rw [Nat.digits_def' (by norm_num : (1 : Nat) < 10) hpos]
      rw [Nat.mod_eq_of_lt h10, Nat.div_eq_of_lt h10]
      simp
    · rw [decCharsAux, if_neg h10]
      have hq : n / 10 < f := by
        have h1 : n / 10 < n := Nat.div_lt_self hpos (by norm_num)
        omega
      have hqpos : 0 < n / 10 := Nat.div_pos (by omega) (by norm_num)
      rw [ih (n / 10) hq hqpos]
      rw [Nat.digits_def' (by norm_num : (1 : Nat) < 10) hpos]
      simp

theorem decChars_digits (n : Nat) :
    decChars n =
      if n = 0 then ['0']
      else ((Nat.digits 10 n).map Nat.digitChar).reverse := by
  by_cases h : n = 0
  · subst h
    rfl
  · rw [if_neg h]
    exact decCharsAux_spec (n + 1) n (by omega) (by omega)

theorem digitChar_inj_lt10 :
    ∀ d1 : Nat, d1 < 10 → ∀ d2 : Nat, d2 < 10 →
      Nat.digitChar d1 = Nat.digitChar d2 → d1 = d2 := by decide

theorem digitChar_ne_dash : ∀ d : Nat, d < 10 → Nat.digitChar d ≠ '-' := by decide

theorem digitChar_eq_zero_char : ∀ d : Nat, d < 10 → Nat.digitChar d = '0' → d = 0 := by
  decide

theorem dash_not_mem_decChars (n : Nat) : '-' ∉ decChars n := by
  rw [decChars_digits]
  split
  · simp
  · intro hmem
    rw [List.mem_reverse] at hmem
    obtain ⟨d, hd, hdc⟩ := List.mem_map.mp hmem
    exact digitChar_ne_dash d (Nat.digits_lt_base (by norm_num) hd) hdc

theorem map_digitChar_inj :
    ∀ l1 l2 : List Nat, (∀ d ∈ l1, d < 10) → (∀ d ∈ l2, d < 10) →
      l1.map Nat.digitChar = l2.map Nat.digitChar → l1 = l2 := by
  intro l1
  induction l1 with
  | nil =>
    intro l2 _ _ h
    cases l2 with
    | nil => rfl
    | cons b tl2 => simp at h
  | cons a tl ih =>
    intro l2 h1 h2 h
    cases l2 with
    | nil => simp at h
    | cons b tl2 =>
      simp only [List.map_cons, List.cons.injEq] at h
      have ha : a = b :=
        digitChar_inj_lt10 a (h1 a (by simp)) b (h2 b (by simp)) h.1
      have htl : tl = tl2 :=
        ih tl2 (fun d hd => h1 d (by simp [hd])) (fun d hd => h2 d (by simp [hd])) h.2
      rw [ha, htl]

theorem decChars_eq_zero_chars (n : Nat) : decChars n = ['0'] → n = 0 := by
  intro h
  by_contra hn
  rw [decChars_digits, if_neg hn] at h
  have hmap : (Nat.digits 10 n).map Nat.digitChar = ['0'] := by
    have := congrArg List.reverse h
    simpa using this
  have hdig : Nat.digits 10 n = [0] := by
    cases hd : Nat.digits 10 n with
    | nil => rw [hd] at hmap; simp at hmap
    | cons d tl =>
      rw [hd] at hmap
      simp only [List.map_cons, List.cons.injEq, List.map_eq_nil_iff] at hmap
      have hdlt : d < 10 := Nat.digits_lt_base (by norm_num) (by rw [hd]; simp)
      rw [digitChar_eq_zero_char d hdlt hmap.1, hmap.2]
  have := Nat.ofDigits_digits 10 n
  rw [hdig] at this
  simp [Nat.ofDigits] at this
  exact hn this.symm

theorem decChars_inj : ∀ m n : Nat, decChars m = decChars n → m = n := by
  intro m n h
  by_cases hm : m = 0
  · subst hm
    exact (decChars_eq_zero_chars n h.symm).symm
  · by_cases hn : n = 0
    · subst hn
      exact decChars_eq_zero_chars m h
    · rw [decChars_digits, if_neg hm, decChars_digits, if_neg hn] at h
      have hmap := List.reverse_injective h
      have hdig := map_digitChar_inj _ _
        (fun d hd => Nat.digits_lt_base (by norm_num) hd)
        (fun d hd => Nat.digits_lt_base (by norm_num) hd) hmap
      exact Nat.digits_inj_iff.mp hdig

theorem append_sep_inj (sep : Char) :
    ∀ a1 a2 r1 r2 : List Char, sep ∉ a1 → sep ∉ a2 →
      a1 ++ sep :: r1 = a2 ++ sep :: r2 → a1 = a2 ∧ r1 = r2 := by
  intro a1
  induction a1 with
  | nil =>
    intro a2 r1 r2 _ h2 h
    cases a2 with
    | nil => simpa using h
    | cons b tl2 =>
      simp only [List.nil_append, List.cons_append, List.cons.injEq] at h
      exact absurd (by rw [h.1]; exact List.mem_cons_self b tl2) h2
  | cons a tl ih =>
    intro a2 r1 r2 h1 h2 h
    cases a2 with
    | nil =>
      simp only [List.cons_append, List.nil_append, List.cons.injEq] at h
      exact absurd (by rw [← h.1]; exact List.mem_cons_self a tl) h1
    | cons b tl2 =>
      simp only [List.cons_append, List.cons.injEq] at h
      have hrec := ih tl2 r1 r2
        (fun hmem => h1 (List.mem_cons_of_mem a hmem))
        (fun hmem => h2 (List.mem_cons_of_mem b hmem)) h.2
      exact ⟨by rw [h.1, hrec.1], hrec.2⟩

theorem string_append_data (s t : String) : (s ++ t).data = s.data ++ t.data := rfl

theorem makeId_two_data (c : Nat) (a b : String) :
    (makeId c [a, b]).data = decChars c ++ '-' :: (a.data ++ '-' :: b.data) := by
  simp [makeId, joinDash, decStr, string_append_data]

/-- C5 (amended): per-event rows (trades, oracleFeeEvents) are keyed
`chainId-txHash-logIndex` via `makeId`; for dash-free transaction hashes
this id is stable (the same event always yields the same id) and
collision-free (two ids coincide exactly when chain id, transaction hash
and log index all coincide). Per-entity `users` rows are chain-scoped, but
the `markets` and `polls` tables key their rows by the bare contract
address, independent of the chain id. -/
theorem row_id_composition :
    (∀ (c1 c2 : Nat) (tx1 tx2 : String) (i1 i2 : Nat),
        '-' ∉ tx1.data → '-' ∉ tx2.data →
        (tradeRowId c1 tx1 i1 = tradeRowId c2 tx2 i2 ↔
          c1 = c2 ∧ tx1 = tx2 ∧ i1 = i2)) ∧
    (∀ (c : Nat) (tx : String) (i : Nat),
        oracleFeeEventRowId c tx i = tradeRowId c tx i) ∧
    (∀ (c1 c2 : Nat) (a : String),
        '-' ∉ a.data →
        (usersRowId c1 a = usersRowId c2 a ↔ c1 = c2)) ∧
    (∀ (c cOther : Nat) (a : String),
        marketsRowId c a = marketsRowId cOther a ∧
        pollsRowId c a = pollsRowId cOther a) := by
  refine ⟨?_, fun c tx i => rfl, ?_, fun c cOther a => ⟨rfl, rfl⟩⟩
  · intro c1 c2 tx1 tx2 i1 i2 htx1 htx2
    constructor
    · intro h
      have hdata := congrArg String.data h
      rw [tradeRowId, tradeRowId, makeId_two_data, makeId_two_data] at hdata
      have h1 := append_sep_inj '-' _ _ _ _
        (dash_not_mem_decChars c1) (dash_not_mem_decChars c2) hdata
      have h2 := append_sep_inj '-' _ _ _ _ htx1 htx2 h1.2
      refine ⟨decChars_inj _ _ h1.1, ?_, ?_⟩
      · cases tx1
        cases tx2
        exact congrArg String.mk h2.1
      · have : (decStr i1).data = (decStr i2).data := by
          simpa [decStr] using h2.2
        exact decChars_inj _ _ (by simpa [decStr] using this)
    · rintro ⟨rfl, rfl, rfl⟩
      rfl
  · intro c1 c2 a ha
    constructor
    · intro h
      have hdata := congrArg String.data h
      have hform : ∀ c : Nat, (usersRowId c a).data = decChars c ++ '-' :: a.data := by
        intro c
        simp [usersRowId, makeId, joinDash, decStr, string_append_data]
      rw [hform, hform] at hdata
      have h1 := append_sep_inj '-' _ _ _ _
        (dash_not_mem_decChars c1) (dash_not_mem_decChars c2) hdata
      exact decChars_inj _ _ h1.1
    · rintro rfl
      rfl

/-- Witness for C5 at a concrete input. -/
theorem row_id_composition_witness :
    ('-' ∉ "0xab".data) ∧
    (1 = 1 ∧ "0xab" = ("0xab" : String) ∧ 3 = 3) :=
  ⟨by decide,
   (row_id_composition.1 1 1 "0xab" "0xab" 3 3 (by decide) (by decide)).mp rfl⟩

/-- C5 counterexample: the `markets` and `polls` row ids are not
chain-scoped — the same contract address on chain 1 and chain 8453 yields
the identical row id, so the claim that every per-entity table (including
markets and polls) keys its rows by a chain-scoped id is false. -/
theorem row_id_not_chain_scoped :
    marketsRowId 1 "0xmkt" = marketsRowId 8453 "0xmkt" ∧
    pollsRowId 1 "0xpoll" = pollsRowId 8453 "0xpoll" ∧
    (1 : Nat) ≠ 8453 :=
  ⟨rfl, rfl, by decide⟩

theorem roundToDouble_of_lt (t : Nat) (h : t < 2 ^ 53) : roundToDouble t = t := by
  rw [roundToDouble, if_pos h]

/-- C9 (amended): for every timestamp below `2^53` the Number-based bucket
functions of src/src/index.ts agree, as decimal strings, with the
BigInt-based `getDayTimestamp`/`getHourTimestamp` of
src/src/utils/helpers.ts; above `2^53` the `Number` conversion rounds and
the two can differ. -/
theorem bucket_functions_agree_below_double_precision (t : Nat)
    (h : t < 2 ^ 53) :
    jsGetDayTimestamp t = decStr (getDayTimestamp t) ∧
    jsGetHourTimestamp t = decStr (getHourTimestamp t) := by
  have h1 : roundToDouble t = t := roundToDouble_of_lt t h
  have hd : roundToDouble (t - t % 86400) = t - t % 86400 :=
    roundToDouble_of_lt _ (lt_of_le_of_lt (Nat.sub_le t _) h)
  have hh : roundToDouble (t - t % 3600) = t - t % 3600 :=
    roundToDouble_of_lt _ (lt_of_le_of_lt (Nat.sub_le t _) h)
  constructor
  · rw [jsGetDayTimestamp, jsGetDayTimestampVal, getDayTimestamp]
    simp only [h1, hd]
  · rw [jsGetHourTimestamp, jsGetHourTimestampVal, getHourTimestamp]
    simp only [h1, hh]

/-- Witness for C9 at a concrete input. -/
theorem bucket_functions_agree_below_double_precision_witness :
    1700000000 < 2 ^ 53 ∧
    (jsGetDayTimestamp 1700000000 = decStr (getDayTimestamp 1700000000) ∧
     jsGetHourTimestamp 1700000000 = decStr (getHourTimestamp 1700000000)) :=
  ⟨by norm_num,
   bucket_functions_agree_below_double_precision 1700000000 (by norm_num)⟩

/-- C9 counterexample: at `t = 18014398509513599` (one less than a multiple
of 86400 that lies just above `2^54`) JavaScript rounds `Number(t)` up to
`18014398509513600`, whose day bucket is `18014398509513600`, while the
BigInt day bucket is `18014398509427200`; the two decimal strings differ,
so the claim that the Number-based and BigInt-based bucket functions agree
for every `t >= 0` is false. -/
theorem bucket_functions_counterexample :
    jsGetDayTimestampVal 18014398509513599 = 18014398509513600 ∧
    getDayTimestamp 18014398509513599 = 18014398509427200 ∧
    jsGetDayTimestamp 18014398509513599 ≠
      decStr (getDayTimestamp 18014398509513599) := by
  have hlog1 : Nat.log 2 18014398509513599 = 54 :=
    Nat.log_eq_of_pow_le_of_lt_pow (by norm_num) (by norm_num)
  have hlog2 : Nat.log 2 18014398509513600 = 54 :=
    Nat.log_eq_of_pow_le_of_lt_pow (by norm_num) (by norm_num)
  have hr1 : roundToDouble 18014398509513599 = 18014398509513600 := by
    rw [roundToDouble, if_neg (by norm_num)]
    simp only [hlog1]
    norm_num
  have hr2 : roundToDouble 18014398509513600 = 18014398509513600 := by
    rw [roundToDouble, if_neg (by norm_num)]
    simp only [hlog2]
    norm_num
  have hval : jsGetDayTimestampVal 18014398509513599 = 18014398509513600 := by
    rw [jsGetDayTimestampVal]
    simp only [hr1]
    norm_num [hr2]
  have hbig : getDayTimestamp 18014398509513599 = 18014398509427200 := by
    rw [getDayTimestamp]
  refine ⟨hval, hbig, fun h => ?_⟩
  rw [jsGetDayTimestamp, hval, hbig] at h
  have heq : decChars 18014398509513600 = decChars 18014398509427200 :=
    congrArg String.data h
  have := decChars_inj _ _ heq
  norm_num at this

/-- C1 (amended): replay of the PollCreated handler is not an idempotent
success — re-dispatching a PollCreated event against any store that
already contains its poll row (in particular, against a fresh copy of the
store a committed first run produced) fails with `DuplicateKey` from
`polls.create`, which the handler rethrows, and leaves the store
unchanged; the range aborts instead of reproducing the committed rows. -/
theorem pollCreated_replay_aborts (client : OracleClient) (chain : ChainInfo)
    (e : PollCreatedEvent) (s : OracleStore)
    (h : (rowsFind s.polls e.pollAddress).isSome = true) :
    (pollCreatedHandler client chain e).run s = (.error .duplicateKey, s) := by
  obtain ⟨p, hp⟩ := Option.isSome_iff_exists.mp h
  simp [pollCreatedHandler, DbM.run, DbM.bind_def, pollsCreate, hp]

/-- Witness for C1 at a concrete input: the store committed by a first run
of the handler contains the poll row, and the second run aborts with
`DuplicateKey` leaving it unchanged. -/
theorem pollCreated_replay_aborts_witness :
    (rowsFind sampleCommittedOracleStore.polls
        samplePollEvent.pollAddress).isSome = true ∧
    (pollCreatedHandler sampleOracleClient sampleChain samplePollEvent).run
        sampleCommittedOracleStore =
      (.error .duplicateKey, sampleCommittedOracleStore) :=
  ⟨by decide,
   pollCreated_replay_aborts sampleOracleClient sampleChain samplePollEvent
     sampleCommittedOracleStore (by decide)⟩

/-- C1 counterexample: dispatching the sample PollCreated event on an
empty store succeeds, but re-dispatching the identical event against the
resulting store throws `DuplicateKey` instead of completing, so the claim
that running the handler twice on the same event yields the same rows as
a (successful) single run is false. -/
theorem pollCreated_not_idempotent :
    ((pollCreatedHandler sampleOracleClient sampleChain samplePollEvent).run
        {}).1 = .ok () ∧
    (pollCreatedHandler sampleOracleClient sampleChain samplePollEvent).run
        ((pollCreatedHandler sampleOracleClient sampleChain
            samplePollEvent).run {}).2 =
      (.error .duplicateKey,
       ((pollCreatedHandler sampleOracleClient sampleChain
           samplePollEvent).run {}).2) :=
  ⟨by decide, by decide⟩

/-- C2 (amended): the MarketFactory:MarketCreated handler never propagates
any error — its catch block swallows every failure of the body and returns
normally, keeping whatever writes the body performed before failing; in
particular an error raised by `marketSystems.create` after the
markets/users/stats writes is logged and discarded, not rethrown. -/
theorem marketCreated_handler_never_throws (chain : ChainInfo)
    (e : MarketCreatedEvent) (s : FactoryStore) :
    (marketCreatedHandler chain e).run s =
      (.ok (), ((marketCreatedBody chain e).run s).2) := by
  rw [marketCreatedHandler, DbM.run, DbM.run, DbM.tryCatch]
  rcases hb : marketCreatedBody chain e s with ⟨res, s1⟩
  cases res with
  | ok a => cases a; rfl
  | error err => rfl

/-- C2 counterexample: on the sample store whose `marketSystems` table
already holds a row for the created market, the handler body fails with
`DuplicateKey` after having written the markets/users/stats rows, yet the
handler returns successfully, the markets row write is visible, and the
`marketSystems` table is unchanged — so the claim that an error raised
partway through the handler propagates out of it is false. -/
theorem marketCreated_swallows_error :
    ((marketCreatedBody sampleChain sampleMarketCreatedEvent).run
        sampleSystemsStore).1 = .error .duplicateKey ∧
    ((marketCreatedHandler sampleChain sampleMarketCreatedEvent).run
        sampleSystemsStore).1 = .ok () ∧
    (rowsFind
        ((marketCreatedHandler sampleChain sampleMarketCreatedEvent).run
            sampleSystemsStore).2.markets "0xm").isSome = true ∧
    ((marketCreatedHandler sampleChain sampleMarketCreatedEvent).run
        sampleSystemsStore).2.marketSystems =
      sampleSystemsStore.marketSystems :=
  ⟨by decide, by decide, by decide, by decide⟩

/-- C3: every on-chain contract read performed while processing an event
is pinned to the block number of that event — the direct handler reads
(PollCreated, PariMutuelCreated, ProtocolFeesWithdrawn) pass
`blockNumber: event.block.number` explicitly, and the market-backfill
reads of `fetchAmmMarketData` and `fetchPariMarketData` reached through
`getOrCreateMinimalMarket` omit the field, which the framework's reader
resolves to the processed event's block; so every read reachable from the
handlers is served at the event's block, never at the latest block. -/
theorem handler_reads_pinned_to_event_block
    (pollAddress oracleAddress marketAddress : String) (blockNumber : Nat)
    (marketExists : Bool) (marketType : String) :
    (pollCreatedReads pollAddress oracleAddress blockNumber).map
        (effectiveReadBlock blockNumber) = [blockNumber, blockNumber] ∧
    (pariMutuelCreatedReads marketAddress blockNumber).map
        (effectiveReadBlock blockNumber) = [blockNumber, blockNumber] ∧
    (protocolFeesWithdrawnReads marketAddress blockNumber).map
        (effectiveReadBlock blockNumber) = [blockNumber] ∧
    (fetchAmmMarketDataReads marketAddress).map
        (effectiveReadBlock blockNumber) =
      [blockNumber, blockNumber, blockNumber, blockNumber, blockNumber] ∧
    (fetchPariMarketDataReads marketAddress).map
        (effectiveReadBlock blockNumber) =
      [blockNumber, blockNumber, blockNumber, blockNumber, blockNumber] ∧
    (getOrCreateMinimalMarketReads marketExists marketType
        marketAddress).map (effectiveReadBlock blockNumber) =
      List.replicate
        (getOrCreateMinimalMarketReads marketExists marketType
          marketAddress).length blockNumber := by
  refine ⟨rfl, rfl, rfl, rfl, rfl, ?_⟩
  unfold getOrCreateMinimalMarketReads
  cases marketExists
  · by_cases hm : marketType = "amm" <;>
      simp [hm, fetchAmmMarketDataReads, fetchPariMarketDataReads,
        effectiveReadBlock, List.replicate]
  · rfl

/-- C6 (amended): the update branches of the factory handlers' markets
upserts leave the accumulated fields `totalVolume`, `totalTrades`,
`currentTvl` and `uniqueTraders` unchanged, preserve `volume24h` and
`initialLiquidity` whenever they are set (defaulting them to 0 when
absent), overwrite the metadata fields from the event, and set
`isIncomplete` to `false`. -/
theorem factory_upsert_update_branch_fields
    (chainId : Nat) (chainName : String) (a : MarketCreatedArgs)
    (b : PariMutuelCreatedArgs) (mst mct : Int)
    (blockNumber timestamp : Nat) (txHash : String) (current : MarketRow) :
    ((marketCreatedUpdateBranch chainId chainName a blockNumber timestamp
        txHash current).totalVolume = current.totalVolume ∧
     (marketCreatedUpdateBranch chainId chainName a blockNumber timestamp
        txHash current).totalTrades = current.totalTrades ∧
     (marketCreatedUpdateBranch chainId chainName a blockNumber timestamp
        txHash current).currentTvl = current.currentTvl ∧
     (marketCreatedUpdateBranch chainId chainName a blockNumber timestamp
        txHash current).uniqueTraders = current.uniqueTraders ∧
     (marketCreatedUpdateBranch chainId chainName a blockNumber timestamp
        txHash current).volume24h = some (current.volume24h.getD 0) ∧
     (marketCreatedUpdateBranch chainId chainName a blockNumber timestamp
        txHash current).initialLiquidity =
          some (current.initialLiquidity.getD 0) ∧
     (marketCreatedUpdateBranch chainId chainName a blockNumber timestamp
        txHash current).isIncomplete = false ∧
     (marketCreatedUpdateBranch chainId chainName a blockNumber timestamp
        txHash current).creator = lowerStr a.creator ∧
     (marketCreatedUpdateBranch chainId chainName a blockNumber timestamp
        txHash current).collateralToken = a.collateral ∧
     (marketCreatedUpdateBranch chainId chainName a blockNumber timestamp
        txHash current).yesToken = some a.yesToken ∧
     (marketCreatedUpdateBranch chainId chainName a blockNumber timestamp
        txHash current).noToken = some a.noToken ∧
     (marketCreatedUpdateBranch chainId chainName a blockNumber timestamp
        txHash current).feeTier = some a.feeTier) ∧
    ((pariMutuelCreatedUpdateBranch chainId chainName b mst mct blockNumber
        timestamp txHash current).totalVolume = current.totalVolume ∧
     (pariMutuelCreatedUpdateBranch chainId chainName b mst mct blockNumber
        timestamp txHash current).totalTrades = current.totalTrades ∧
     (pariMutuelCreatedUpdateBranch chainId chainName b mst mct blockNumber
        timestamp txHash current).currentTvl = current.currentTvl ∧
     (pariMutuelCreatedUpdateBranch chainId chainName b mst mct blockNumber
        timestamp txHash current).uniqueTraders = current.uniqueTraders ∧
     (pariMutuelCreatedUpdateBranch chainId chainName b mst mct blockNumber
        timestamp txHash current).volume24h =
          some (current.volume24h.getD 0) ∧
     (pariMutuelCreatedUpdateBranch chainId chainName b mst mct blockNumber
        timestamp txHash current).initialLiquidity =
          some (current.initialLiquidity.getD 0) ∧
     (pariMutuelCreatedUpdateBranch chainId chainName b mst mct blockNumber
        timestamp txHash current).isIncomplete = false ∧
     (pariMutuelCreatedUpdateBranch chainId chainName b mst mct blockNumber
        timestamp txHash current).creator = lowerStr b.creator ∧
     (pariMutuelCreatedUpdateBranch chainId chainName b mst mct blockNumber
        timestamp txHash current).collateralToken = b.collateral ∧
     (pariMutuelCreatedUpdateBranch chainId chainName b mst mct blockNumber
        timestamp txHash current).curveFlattener = some b.curveFlattener ∧
     (pariMutuelCreatedUpdateBranch chainId chainName b mst mct blockNumber
        timestamp txHash current).marketStartTimestamp = some mst) :=
  ⟨⟨rfl, rfl, rfl, rfl, rfl, rfl, rfl, rfl, rfl, rfl, rfl, rfl⟩,
   ⟨rfl, rfl, rfl, rfl, rfl, rfl, rfl, rfl, rfl, rfl, rfl⟩⟩

/-- C6 counterexample: a market row backfilled by
`getOrCreateMinimalMarket` has no `volume24h` value, and the update branch
of the MarketFactory:MarketCreated upsert sets it to `0n`; the field is
therefore not left unchanged, so the claim that the update branch leaves
`volume24h` (among the accumulated fields) unchanged is false for exactly
the backfilled rows the claim describes. -/
theorem factory_upsert_update_changes_missing_volume24h :
    (minimalAmmMarketRow 1 "ethereum" "0xp" "0xc" "0xt" "0xy" "0xn" 10 1000
        "0xh").volume24h = none ∧
    (marketCreatedUpdateBranch 1 "ethereum"
        ⟨"0xp", "0xm", "0xc", "0xy", "0xn", "0xt", 30, 100⟩ 12 1200 "0xh2"
        (minimalAmmMarketRow 1 "ethereum" "0xp" "0xc" "0xt" "0xy" "0xn" 10
          1000 "0xh")).volume24h = some 0 ∧
    (some (0 : Int) ≠ (none : Option Int)) :=
  ⟨rfl, rfl, by decide⟩

theorem rowsFind_replace (t : List (String × ρ)) (id : String) (r : ρ) :
    rowsFind (rowsReplace t id r) id = (rowsFind t id).map (fun _ => r) := by
  induction t with
  | nil => rfl
  | cons p tl ih =>
    simp only [rowsReplace, List.map_cons]
    by_cases hp : p.1 = id
    · rw [if_pos hp]
      simp [rowsFind, hp]
    · rw [if_neg hp]
      have : rowsReplace tl id r = tl.map fun q => if q.1 = id then (id, r) else q := rfl
      simp [rowsFind, hp, ← this, ih]

theorem isUnique_duplicateKey :
    isUniqueConstraintViolation .duplicateKey = true := by decide

/-- C7: under the data-store contract (`create` fails with `DuplicateKey`
exactly when the id exists), `checkAndRecordMarketInteraction` returns
`true` exactly when no `marketUsers` row with id
`chainId-marketAddress-traderAddress` existed before the call, never
throws, and in either case terminates with that row present and its
`lastTradeAt` equal to the passed timestamp. -/
theorem checkAndRecordMarketInteraction_spec (s : MarketUsersStore)
    (chainId : Nat) (marketAddress traderAddress : String) (timestamp : Nat) :
    ((checkAndRecordMarketInteraction chainId marketAddress traderAddress
        timestamp).run s).1 =
      Except.ok
        (rowsFind s.marketUsers
          (makeId chainId [marketAddress, traderAddress])).isNone ∧
    (rowsFind
        ((checkAndRecordMarketInteraction chainId marketAddress traderAddress
            timestamp).run s).2.marketUsers
        (makeId chainId [marketAddress, traderAddress])).map
      MarketUserRow.lastTradeAt = some timestamp := by
  unfold checkAndRecordMarketInteraction withRetry
  cases h : rowsFind s.marketUsers (makeId chainId [marketAddress, traderAddress]) with
  | none =>
    constructor
    · simp [DbM.run, DbM.tryCatch, DbM.bind_def, DbM.pure_def,
        marketUsersCreate, h]
    · simp [DbM.run, DbM.tryCatch, DbM.bind_def, DbM.pure_def,
        marketUsersCreate, h, rowsFind]
  | some u =>
    constructor
    · simp [DbM.run, DbM.tryCatch, DbM.bind_def, DbM.pure_def,
        marketUsersCreate, marketUsersUpdateLastTradeAt, h,
        isUnique_duplicateKey]
    · simp [DbM.run, DbM.tryCatch, DbM.bind_def, DbM.pure_def,
        marketUsersCreate, marketUsersUpdateLastTradeAt, h,
        isUnique_duplicateKey, rowsFind_replace]

theorem mem_registerFilter (f g : LogFilter) (fs : List LogFilter)
    (h : g ∈ fs) : g ∈ registerFilter f fs := by
  unfold registerFilter
  split
  · exact h
  · exact List.mem_cons_of_mem f h

theorem self_mem_registerFilter (f : LogFilter) (fs : List LogFilter) :
    f ∈ registerFilter f fs := by
  unfold registerFilter
  split
  · assumption
  · exact List.mem_cons_self f fs

theorem mem_discoverStep (rules : List FactoryRule) (fs : List LogFilter)
    (l : LogEnv) (g : LogFilter) (h : g ∈ fs) : g ∈ discoverStep rules fs l := by
  unfold discoverStep
  induction rules generalizing fs with
  | nil => simpa using h
  | cons r rs ih =>
    simp only [List.foldl_cons]
    apply ih
    split
    · exact mem_registerFilter _ _ _ h
    · exact h

theorem child_filter_mem_discoverStep (l : LogEnv) (r : FactoryRule)
    (haddr : l.addr = r.parent) (hsig : l.sig = r.creationSig) :
    ∀ rules : List FactoryRule, r ∈ rules → ∀ fs : List LogFilter,
      (⟨l.arg, l.blk⟩ : LogFilter) ∈ discoverStep rules fs l := by
  intro rules
  induction rules with
  | nil => intro h; cases h
  | cons r0 rs ih =>
    intro hr fs
    unfold discoverStep
    simp only [List.foldl_cons]
    rcases List.mem_cons.mp hr with h0 | hmem
    · subst h0
      rw [if_pos ⟨haddr, hsig⟩]
      exact mem_discoverStep rs _ l _ (self_mem_registerFilter _ _)
    · exact ih hmem _

theorem matchesAny_of_mem (fs : List LogFilter) (l : LogEnv) (f : LogFilter)
    (hf : f ∈ fs) (haddr : f.addr = l.addr) (hblk : f.startBlock ≤ l.blk) :
    matchesAny fs l = true := by
  unfold matchesAny
  rw [List.any_eq_true]
  exact ⟨f, hf, by simp [haddr, hblk]⟩

theorem mem_runBatch_of_filter (rules : List FactoryRule) (d : LogEnv)
    (f : LogFilter) (haddr : f.addr = d.addr) (hblk : f.startBlock ≤ d.blk) :
    ∀ logs : List LogEnv, ∀ fs : List LogFilter,
      f ∈ fs → d ∈ logs → d ∈ runBatch rules fs logs := by
  intro logs
  induction logs with
  | nil => intro fs _ h; cases h
  | cons l rest ih =>
    intro fs hf hd
    rw [runBatch]
    rcases List.mem_cons.mp hd with rfl | hmem
    · rw [if_pos (matchesAny_of_mem _ _ f (mem_discoverStep _ _ _ _ hf) haddr hblk)]
      exact List.mem_cons_self _ _
    · by_cases hm : matchesAny (discoverStep rules fs l) l = true
      · rw [if_pos hm]
        exact List.mem_cons_of_mem _ (ih _ (mem_discoverStep _ _ _ _ hf) hmem)
      · rw [if_neg hm]
        exact ih _ (mem_discoverStep _ _ _ _ hf) hmem

theorem runBatch_superset_tail (rules : List FactoryRule)
    (fs : List LogFilter) (l : LogEnv) (rest : List LogEnv) (d : LogEnv)
    (h : d ∈ runBatch rules (discoverStep rules fs l) rest) :
    d ∈ runBatch rules fs (l :: rest) := by
  rw [runBatch]
  split
  · exact List.mem_cons_of_mem _ h
  · exact h

/-- C4: factory discovery completeness — when a creation event of a
registered factory rule appears in a dispatched block range, a log emitted
by the discovered child in the same block (later in the range's order) is
delivered in the same batch: the child is registered with start block
equal to the creation event's block, so the `startBlock <= blockNumber`
filter admits the same-block child log. -/
theorem factory_child_same_block_delivered (rules : List FactoryRule)
    (r : FactoryRule) (fs0 : List LogFilter) (pre rest : List LogEnv)
    (c d : LogEnv) (hr : r ∈ rules)
    (haddr : c.addr = r.parent) (hsig : c.sig = r.creationSig)
    (hchild : d.addr = c.arg) (hblk : d.blk = c.blk) (hd : d ∈ rest) :
    d ∈ runBatch rules fs0 (pre ++ c :: rest) := by
  induction pre generalizing fs0 with
  | nil =>
    simp only [List.nil_append]
    apply runBatch_superset_tail
    exact mem_runBatch_of_filter rules d ⟨c.arg, c.blk⟩ hchild.symm (le_of_eq hblk.symm)
      rest _ (child_filter_mem_discoverStep c r haddr hsig rules hr _) hd
  | cons p pre ih =>
    simp only [List.cons_append]
    exact runBatch_superset_tail rules fs0 p _ d (ih (discoverStep rules fs0 p))

/-- Witness for C4 at the spec's concrete scenario: the MarketFactory
emits MarketCreated for child `0xabc` in block 50 / tx 2, and the child
emits a BuyTokens log in block 50 / tx 3; the child log is delivered in
the same batch. -/
theorem factory_child_same_block_delivered_witness :
    (⟨"0xf", "MarketCreated"⟩ : FactoryRule) ∈ pandoraFactoryRules "0xo" "0xf" ∧
    (⟨50, 3, 0, "0xabc", "BuyTokens", ""⟩ : LogEnv) ∈
      runBatch (pandoraFactoryRules "0xo" "0xf") [⟨"0xf", 0⟩]
        ([] ++ (⟨50, 2, 0, "0xf", "MarketCreated", "0xabc"⟩ : LogEnv) ::
          [⟨50, 3, 0, "0xabc", "BuyTokens", ""⟩]) :=
  ⟨by decide,
   factory_child_same_block_delivered (pandoraFactoryRules "0xo" "0xf")
     ⟨"0xf", "MarketCreated"⟩ [⟨"0xf", 0⟩] []
     [⟨50, 3, 0, "0xabc", "BuyTokens", ""⟩]
     ⟨50, 2, 0, "0xf", "MarketCreated", "0xabc"⟩
     ⟨50, 3, 0, "0xabc", "BuyTokens", ""⟩
     (by decide) rfl rfl rfl rfl (by decide)⟩

/-- C10: for all non-negative bigint inputs, `computeYesChanceFromCollateral`
returns exactly 500000000 when the pools sum to zero, otherwise the floor
of `totalCollateralYes * 1000000000 / (totalCollateralYes + totalCollateralNo)`,
and the result always lies in the closed interval [0, 1000000000]. -/
theorem computeYesChance_spec (y n : Int) (hy : 0 ≤ y) (hn : 0 ≤ n) :
    (y + n = 0 → computeYesChanceFromCollateral y n = 500000000) ∧
    (y + n ≠ 0 →
      computeYesChanceFromCollateral y n = y * 1000000000 / (y + n)) ∧
    0 ≤ computeYesChanceFromCollateral y n ∧
    computeYesChanceFromCollateral y n ≤ 1000000000 := by
  have htot : 0 ≤ y + n := add_nonneg hy hn
  by_cases h : y + n ≤ 0
  · have h0 : y + n = 0 := le_antisymm h htot
    refine ⟨fun _ => ?_, fun hne => absurd h0 hne, ?_, ?_⟩ <;>
      simp [computeYesChanceFromCollateral, h0]
  · have hpos : 0 < y + n := lt_of_not_le h
    have hval : computeYesChanceFromCollateral y n = y * 1000000000 / (y + n) := by
      simp [computeYesChanceFromCollateral, h]
    refine ⟨fun h0 => absurd h0 (ne_of_gt hpos), fun _ => hval, ?_, ?_⟩
    · rw [hval]
      exact Int.ediv_nonneg (by positivity) htot
    · rw [hval]
      have hle : y * 1000000000 ≤ (y + n) * 1000000000 := by nlinarith
      calc y * 1000000000 / (y + n) ≤ (y + n) * 1000000000 / (y + n) :=
            Int.ediv_le_ediv hpos hle
        _ = 1000000000 := Int.mul_ediv_cancel_left _ (ne_of_gt hpos)

/-- Witness for C10 at a concrete input. -/
theorem computeYesChance_spec_witness :
    (0 : Int) ≤ 3 ∧ (0 : Int) ≤ 1 ∧
    ((3 : Int) + 1 = 0 → computeYesChanceFromCollateral 3 1 = 500000000) ∧
    ((3 : Int) + 1 ≠ 0 →
      computeYesChanceFromCollateral 3 1 = 3 * 1000000000 / (3 + 1)) ∧
    0 ≤ computeYesChanceFromCollateral 3 1 ∧
    computeYesChanceFromCollateral 3 1 ≤ 1000000000 :=
  ⟨by decide, by decide, computeYesChance_spec 3 1 (by decide) (by decide)⟩

/-- C8: the PredictionAMM:LiquidityRemoved handler clamps the market TVL
and the platform liquidity at zero instead of subtracting below zero, and
`reducePosition` keeps a position's token and collateral fields
non-negative for any sold token amount, so these stored aggregates never
become negative. -/
theorem handlers_keep_aggregates_nonneg (currentTvl totalLiquidity c : Int)
    (side : String) (tokenAmount : Int) (p : PositionAmounts)
    (hyt : 0 ≤ p.yesTokens) (hya : 0 ≤ p.yesAmount)
    (hnt : 0 ≤ p.noTokens) (hna : 0 ≤ p.noAmount) :
    0 ≤ liquidityRemovedNewTvl currentTvl c ∧
    0 ≤ liquidityRemovedNewLiquidity totalLiquidity c ∧
    0 ≤ (reducePositionCalc side tokenAmount p).yesTokens ∧
    0 ≤ (reducePositionCalc side tokenAmount p).yesAmount ∧
    0 ≤ (reducePositionCalc side tokenAmount p).noTokens ∧
    0 ≤ (reducePositionCalc side tokenAmount p).noAmount := by
  refine ⟨?_, ?_, ?_, ?_, ?_, ?_⟩
  · unfold liquidityRemovedNewTvl
    split <;> omega
  · unfold liquidityRemovedNewLiquidity
    split <;> omega
  all_goals
    unfold reducePositionCalc
    dsimp only
    split_ifs <;> (try dsimp only) <;> linarith

/-- Witness for C8 at a concrete input. -/
theorem handlers_keep_aggregates_nonneg_witness :
    (0 : Int) ≤ (⟨5, 10, 7, 14⟩ : PositionAmounts).yesTokens ∧
    (0 : Int) ≤ (⟨5, 10, 7, 14⟩ : PositionAmounts).yesAmount ∧
    (0 : Int) ≤ (⟨5, 10, 7, 14⟩ : PositionAmounts).noTokens ∧
    (0 : Int) ≤ (⟨5, 10, 7, 14⟩ : PositionAmounts).noAmount ∧
    (0 ≤ liquidityRemovedNewTvl 100 250 ∧
     0 ≤ liquidityRemovedNewLiquidity 100 250 ∧
     0 ≤ (reducePositionCalc "yes" 9 ⟨5, 10, 7, 14⟩).yesTokens ∧
     0 ≤ (reducePositionCalc "yes" 9 ⟨5, 10, 7, 14⟩).yesAmount ∧
     0 ≤ (reducePositionCalc "yes" 9 ⟨5, 10, 7, 14⟩).noTokens ∧
     0 ≤ (reducePositionCalc "yes" 9 ⟨5, 10, 7, 14⟩).noAmount) :=
  ⟨by decide, by decide, by decide, by decide,
   handlers_keep_aggregates_nonneg 100 100 250 "yes" 9 ⟨5, 10, 7, 14⟩
     (by decide) (by decide) (by decide) (by decide)⟩
